import Mathlib

/-!
Verification of the ClawdVault SDK core: the wallet signature protocol
(`createAuthSignature`, `verifySignature` in `wallet.ts`), the event stream
connection state machine (`StreamConnection` in `streaming.ts`), the stream
registry (`ClawdVaultStreaming`) and the request dispatcher auth-header logic
(`ClawdVaultClient.request` in `client.ts`), embedded shallowly in Lean.
-/

namespace ClawdVault

/-! ## JSON values

JavaScript runtime values that cross the signing boundary, together with an
executable model of `JSON.stringify` (insertion order preserved, standard
escapes) and of JS truthiness and template-literal string conversion. -/

inductive Json where
  | null
  | bool (b : Bool)
  | num (n : Int)
  | str (s : String)
  | arr (elems : List Json)
  | obj (fields : List (String × Json))
deriving Repr

/-- Escape one character as inside a JSON string literal. -/
def escapeChar (c : Char) : String :=
  if c = '"' then "\\\""
  else if c = '\\' then "\\\\"
  else if c = '\n' then "\\n"
  else if c = '\r' then "\\r"
  else if c = '\t' then "\\t"
  else String.singleton c

def escapeString (s : String) : String :=
  String.join (s.toList.map escapeChar)

mutual

/-- Model of `JSON.stringify` on a JS value: object fields are emitted in
insertion order, exactly as `JSON.stringify` does for plain objects. -/
def stringify : Json → String
  | Json.null => "null"
  | Json.bool b => cond b "true" "false"
  | Json.num n => toString n
  | Json.str s => "\"" ++ escapeString s ++ "\""
  | Json.arr es => "[" ++ stringifyList es ++ "]"
  | Json.obj fs => "\x7b" ++ stringifyFields fs ++ "\x7d"

def stringifyList : List Json → String
  | [] => ""
  | [v] => stringify v
  | v :: vs => stringify v ++ "," ++ stringifyList vs

def stringifyFields : List (String × Json) → String
  | [] => ""
  | [(k, v)] => "\"" ++ escapeString k ++ "\":" ++ stringify v
  | (k, v) :: fs => "\"" ++ escapeString k ++ "\":" ++ stringify v ++ "," ++ stringifyFields fs

end

/-- JS truthiness of a value. -/
def Json.truthy : Json → Bool
  | Json.null => false
  | Json.bool b => b
  | Json.num n => n != 0
  | Json.str s => s != ""
  | Json.arr _ => true
  | Json.obj _ => true

mutual

/-- JS template-literal conversion of a value to a string, as in
the backtick template building the auth message. -/
def Json.toJsString : Json → String
  | Json.null => "null"
  | Json.bool b => cond b "true" "false"
  | Json.num n => toString n
  | Json.str s => s
  | Json.arr es => Json.arrJoin es
  | Json.obj _ => "[object Object]"

/-- JS `Array.prototype.toString`: comma-join, with `null` rendered empty. -/
def Json.arrJoin : List Json → String
  | [] => ""
  | [Json.null] => ""
  | [v] => Json.toJsString v
  | Json.null :: vs => "," ++ Json.arrJoin vs
  | v :: vs => Json.toJsString v ++ "," ++ Json.arrJoin vs

end

/-- First binding of a property name in a JS object literal model. -/
def findProp (fields : List (String × Json)) (key : String) : Option Json :=
  (fields.find? (fun p => p.1 == key)).map (fun p => p.2)

/-! ## Signature protocol (`wallet.ts`)

`createAuthSignature(signer, payload, action?)` builds
`ClawdVault:<authAction>:<window>:<JSON.stringify(signData)>` where
`authAction = action || payload.action || 'session'`,
`window = Math.floor(Math.floor(Date.now() / 1000) / 300) * 300`, and
`signData` is the literal `{ action: 'create_session' }` when
`authAction === 'session'` and the shallow copy `{ ...payload }` otherwise.
The current time in UNIX seconds is passed explicitly as `nowSeconds`. -/

/-- JS truthiness of an optional string argument (absent or empty is falsy). -/
def optStrTruthy : Option String → Bool
  | none => false
  | some s => s != ""

/-- The `action || payload.action || 'session'` resolution. The result is a
JS value: the payload property need not be a string. -/
def resolveAuthAction (action : Option String) (payload : List (String × Json)) : Json :=
  if optStrTruthy action then Json.str (action.getD "")
  else
    match findProp payload "action" with
    | some v => if v.truthy then v else Json.str "session"
    | none => Json.str "session"

/-- Strict-equality test `authAction === 'session'`. -/
def isSessionAction : Json → Bool
  | Json.str s => s == "session"
  | _ => false

/-- The object that is JSON-encoded into the signed message. -/
def authSignData (authAction : Json) (payload : List (String × Json)) :
    List (String × Json) :=
  if isSessionAction authAction then [("action", Json.str "create_session")] else payload

/-- 5-minute window quantization: `Math.floor(nowSeconds / 300) * 300`. -/
def authWindow (nowSeconds : Nat) : Nat := nowSeconds / 300 * 300

/-- The authentication message string built by `createAuthSignature`. -/
def buildAuthMessage (action : Option String) (payload : List (String × Json))
    (nowSeconds : Nat) : String :=
  let authAction := resolveAuthAction action payload
  let signData := authSignData authAction payload
  "ClawdVault:" ++ authAction.toJsString ++ ":" ++ toString (authWindow nowSeconds)
    ++ ":" ++ stringify (Json.obj signData)

/-- Abstract wallet signer: the external signing capability. `signB58` maps a
message string to the base58 encoding of its detached signature, composing the
UTF-8 encoding, `signMessage` and `bs58.encode` steps of the source. -/
structure WalletSignerM where
  walletAddress : String
  signB58 : String → String

structure AuthSignature where
  signature : String
  wallet : String
deriving Repr, DecidableEq

/-- `createAuthSignature`: sign the built message, return signature and wallet. -/
def createAuthSignature (signer : WalletSignerM) (payload : List (String × Json))
    (action : Option String) (nowSeconds : Nat) : AuthSignature :=
  { signature := signer.signB58 (buildAuthMessage action payload nowSeconds),
    wallet := signer.walletAddress }

/-! ## `verifySignature` (`wallet.ts`)

The source wraps the whole body in `try ... catch` and returns `false` on any
thrown error: signature base58 decoding (`bs58.decode` throws on a non-base58
character), public key construction (`new PublicKey(s)` throws unless the
base58 decoding is exactly 32 bytes), and `nacl.sign.detached.verify` (throws
on a signature that is not 64 bytes or a key that is not 32 bytes). The
ed25519 verification core itself is the external verifier capability, taken
as a function parameter `ed`. -/

def base58Alphabet : List Char :=
  "123456789ABCDEFGHJKLMNPQRSTUVWXYZabcdefghijkmnopqrstuvwxyz".toList

def base58CharIndex (c : Char) : Option Nat :=
  base58Alphabet.findIdx? (fun d => d == c)

/-- Big-endian base conversion of the decoded base58 integer into bytes. -/
def natToBytesBE (n : Nat) : List Nat :=
  if h : n = 0 then []
  else natToBytesBE (n / 256) ++ [n % 256]
termination_by n
decreasing_by exact Nat.div_lt_self (Nat.pos_of_ne_zero h) (by decide)

def base58DecodeNat (s : String) : Option Nat :=
  s.toList.foldlM (fun acc c => (base58CharIndex c).map (fun d => acc * 58 + d)) 0

/-- `bs58.decode`: `none` models the thrown non-base58-character error. -/
def bs58decode (s : String) : Option (List Nat) :=
  match base58DecodeNat s with
  | none => none
  | some n =>
      let leading := (s.toList.takeWhile (fun c => c == '1')).length
      some (List.replicate leading 0 ++ natToBytesBE n)

/-- `new PublicKey(s)`: base58-decode and require exactly 32 bytes. -/
def publicKeyFromBase58 (s : String) : Option (List Nat) :=
  match bs58decode s with
  | some bytes => if bytes.length = 32 then some bytes else none
  | none => none

/-- UTF-8 bytes of a string, as `new TextEncoder().encode(message)`. -/
def utf8Bytes (m : String) : List Nat :=
  m.toUTF8.toList.map (fun b => b.toNat)

/-- `nacl.sign.detached.verify` boundary checks around the ed25519 core. -/
def naclVerifyDetached (ed : List Nat → List Nat → List Nat → Bool)
    (msg sig pk : List Nat) : Except String Bool :=
  if sig.length ≠ 64 then Except.error "bad signature size"
  else if pk.length ≠ 32 then Except.error "bad public key size"
  else Except.ok (ed msg sig pk)

/-- The body of `verifySignature` before the surrounding `try/catch`:
an error value models a thrown JS exception. -/
def verifySignatureBody (ed : List Nat → List Nat → List Nat → Bool)
    (message signature publicKey : String) : Except String Bool :=
  match bs58decode signature with
  | none => Except.error "Non-base58 character"
  | some sigBytes =>
      match publicKeyFromBase58 publicKey with
      | none => Except.error "Invalid public key input"
      | some pubkey => naclVerifyDetached ed (utf8Bytes message) sigBytes pubkey

/-- `verifySignature`: the `try/catch` maps every thrown error to `false`. -/
def verifySignature (ed : List Nat → List Nat → List Nat → Bool)
    (message signature publicKey : String) : Bool :=
  match verifySignatureBody ed message signature publicKey with
  | Except.ok b => b
  | Except.error _ => false

/-! ## Request dispatcher auth headers (`client.ts`)

`ClawdVaultClient.request`: when `auth` is set, a truthy cached
`sessionToken` yields a bearer `Authorization` header; otherwise, when a
signer is present AND a (truthy) JSON body was supplied, `createAuthSignature`
is invoked on the body and the supplied action, and `X-Wallet`, `X-Signature`
and (for a truthy action) `X-Action` headers are attached. -/

def authHeaders (sessionToken : Option String) (signer : Option WalletSignerM)
    (body : Option (List (String × Json))) (action : Option String)
    (nowSeconds : Nat) (auth : Bool) : List (String × String) :=
  if auth then
    if optStrTruthy sessionToken then
      [("Authorization", "Bearer " ++ sessionToken.getD "")]
    else
      match signer, body with
      | some sg, some b =>
          let res := createAuthSignature sg b action nowSeconds
          [("X-Wallet", res.wallet), ("X-Signature", res.signature)]
            ++ (if optStrTruthy action then [("X-Action", action.getD "")] else [])
      | _, _ => []
  else []

/-! ## `StreamConnection` (`streaming.ts`)

Operational model. The mutable fields of the class are `ConnState`; the
`World` adds a transport-handle allocator so that "live transport handle"
is observable: `connect` allocates a fresh `EventSource` handle id, `close`
removes it from the live set. Callback invocations are modelled as emitted
`Emit` events; the delay value of the backoff timer (a float
`reconnectDelay * 1.5 ^ (attempts - 1)`) is irrelevant to every claim since
at most one timer exists at a time, so `reconnectTimeout` only records
whether an uncancelled, unfired timer is pending. -/

structure StreamOptions where
  autoReconnect : Bool
  reconnectDelay : Nat
  maxReconnectAttempts : Nat
deriving Repr, DecidableEq

/-- Constructor defaults: `autoReconnect ?? true`, `reconnectDelay ?? 3000`,
`maxReconnectAttempts ?? 10`. -/
def defaultStreamOptions : StreamOptions :=
  { autoReconnect := true, reconnectDelay := 3000, maxReconnectAttempts := 10 }

structure ConnState where
  eventSource : Option Nat
  reconnectAttempts : Nat
  reconnectTimeout : Bool
  isConnected : Bool
  isManuallyDisconnected : Bool
deriving Repr, DecidableEq

/-- Field initializers of `StreamConnection`. -/
def initialConnState : ConnState :=
  { eventSource := none, reconnectAttempts := 0, reconnectTimeout := false,
    isConnected := false, isManuallyDisconnected := false }

structure World where
  conn : ConnState
  options : StreamOptions
  nextHandle : Nat
  liveHandles : List Nat
deriving Repr, DecidableEq

def initWorld (opts : StreamOptions) : World :=
  { conn := initialConnState, options := opts, nextHandle := 0, liveHandles := [] }

/-- Observable callback invocations. -/
inductive Emit where
  | onConnect
  | onDisconnect
  | onError (msg : String)
deriving Repr, DecidableEq

def streamErrorMsg : String := "Stream connection error"

def maxReconnectMsg (n : Nat) : String :=
  "Max reconnect attempts (" ++ toString n ++ ") reached"

/-- Close the current `eventSource` handle, removing it from the live set. -/
def closeHandle (live : List Nat) : Option Nat → List Nat
  | some h => live.erase h
  | none => live

/-- `connect()`: early return while an `eventSource` is held, else clear the
manual-disconnect flag and open a fresh transport handle. -/
def connect (w : World) : World × List Emit :=
  if w.conn.eventSource.isSome then (w, [])
  else
    ({ w with
        conn := { w.conn with isManuallyDisconnected := false,
                              eventSource := some w.nextHandle },
        nextHandle := w.nextHandle + 1,
        liveHandles := w.liveHandles ++ [w.nextHandle] }, [])

/-- `scheduleReconnect()`: clear any pending timer; at or past the attempt cap
emit the terminal error and stop, else increment the counter and arm the
backoff timer. -/
def scheduleReconnect (w : World) : World × List Emit :=
  if w.options.maxReconnectAttempts ≤ w.conn.reconnectAttempts then
    ({ w with conn := { w.conn with reconnectTimeout := false } },
     [Emit.onError (maxReconnectMsg w.options.maxReconnectAttempts)])
  else
    ({ w with conn := { w.conn with
        reconnectTimeout := true,
        reconnectAttempts := w.conn.reconnectAttempts + 1 } }, [])

/-- The `onopen` handler of the current transport. -/
def handleOpen (w : World) : World × List Emit :=
  ({ w with conn := { w.conn with isConnected := true, reconnectAttempts := 0 } },
   [Emit.onConnect])

/-- The `onerror` handler of the current transport. -/
def handleError (w : World) : World × List Emit :=
  let wasConnected := w.conn.isConnected
  let w1 := { w with conn := { w.conn with isConnected := false } }
  let base := (if wasConnected then [Emit.onDisconnect] else [])
    ++ [Emit.onError streamErrorMsg]
  if w1.options.autoReconnect && !w1.conn.isManuallyDisconnected then
    ((scheduleReconnect w1).1, base ++ (scheduleReconnect w1).2)
  else (w1, base)

/-- The `setTimeout` callback armed by `scheduleReconnect`: close and drop the
stale transport handle, then `connect()`. -/
def fireReconnectTimer (w : World) : World × List Emit :=
  let w1 := { w with
      conn := { w.conn with eventSource := none, reconnectTimeout := false },
      liveHandles := closeHandle w.liveHandles w.conn.eventSource }
  connect w1

/-- `disconnect()`: set the manual flag, cancel any pending timer, close the
transport handle if held, and fire disconnect callbacks only when connected. -/
def disconnect (w : World) : World × List Emit :=
  let live := closeHandle w.liveHandles w.conn.eventSource
  if w.conn.isConnected then
    ({ w with
        conn := { w.conn with isManuallyDisconnected := true,
                              reconnectTimeout := false, eventSource := none,
                              isConnected := false },
        liveHandles := live }, [Emit.onDisconnect])
  else
    ({ w with
        conn := { w.conn with isManuallyDisconnected := true,
                              reconnectTimeout := false, eventSource := none },
        liveHandles := live }, [])

/-- External stimuli: caller commands, transport events on the currently held
handle, and expiry of the pending backoff timer. -/
inductive StreamEvent where
  | cmdConnect
  | cmdDisconnect
  | transportOpen
  | transportError
  | timerFire
deriving Repr, DecidableEq

/-- One step: transport callbacks only fire while a handle is held, the timer
callback only fires while an uncancelled timer is pending. -/
def step (w : World) : StreamEvent → World × List Emit
  | StreamEvent.cmdConnect => connect w
  | StreamEvent.cmdDisconnect => disconnect w
  | StreamEvent.transportOpen =>
      if w.conn.eventSource.isSome then handleOpen w else (w, [])
  | StreamEvent.transportError =>
      if w.conn.eventSource.isSome then handleError w else (w, [])
  | StreamEvent.timerFire =>
      if w.conn.reconnectTimeout then fireReconnectTimer w else (w, [])

/-- Run a sequence of stimuli, collecting all emitted callback invocations. -/
def run (w : World) : List StreamEvent → World × List Emit
  | [] => (w, [])
  | e :: es =>
      let p := step w e
      let q := run p.1 es
      (q.1, p.2 ++ q.2)

/-! ## Stream registry (`ClawdVaultStreaming`)

`streamTrades`, `streamToken` and `streamChat` share one pattern: compute the
key `"<topic>:<mint>"`, construct a `StreamConnection` at the topic URL on a
miss, and return the stored instance. Reference identity of JS objects is
modelled by allocating connection ids from a counter; the registry maps key
strings to ids and a store maps ids to the connection contents. -/

structure RegConn where
  url : String
  conn : ConnState
deriving Repr, DecidableEq

structure StreamingState where
  baseUrl : String
  options : StreamOptions
  connections : List (String × Nat)
  store : List (Nat × RegConn)
  nextId : Nat
deriving Repr, DecidableEq

/-- `baseUrl.replace(/\/$/, "")` then an empty registry. -/
def initStreaming (baseUrl : String) (opts : StreamOptions) : StreamingState :=
  { baseUrl := if baseUrl.endsWith "/" then baseUrl.dropRight 1 else baseUrl,
    options := opts, connections := [], store := [], nextId := 0 }

def streamTopics : List String := ["trades", "token", "chat"]

def streamKey (topic mint : String) : String := topic ++ ":" ++ mint

def streamUrl (baseUrl topic mint : String) : String :=
  baseUrl ++ "/stream/" ++ topic ++ "?mint=" ++ mint

def lookupKey (s : StreamingState) (key : String) : Option Nat :=
  (s.connections.find? (fun p => p.1 == key)).map (fun p => p.2)

def lookupStore (s : StreamingState) (id : Nat) : Option RegConn :=
  (s.store.find? (fun p => p.1 == id)).map (fun p => p.2)

/-- The common get-or-create body of `streamTrades` / `streamToken` /
`streamChat`: on a miss, a `new StreamConnection(url, options)` (not yet
connected) is inserted under the key; the stored instance is returned. -/
def getOrCreate (s : StreamingState) (topic mint : String) : StreamingState × Nat :=
  let key := streamKey topic mint
  match lookupKey s key with
  | some id => (s, id)
  | none =>
      let id := s.nextId
      ({ s with
          connections := s.connections ++ [(key, id)],
          store := s.store ++ [(id, { url := streamUrl s.baseUrl topic mint,
                                      conn := initialConnState })],
          nextId := id + 1 }, id)

/-! ## Derived predicates used by the theorems -/

/-- The live-handle set a connection state accounts for. -/
def esList : Option Nat → List Nat
  | some h => [h]
  | none => []

/-- Transport-handle invariant: the live handles are exactly the one held in
`eventSource` (if any), and every live handle was allocated in the past. -/
def WorldInv (w : World) : Prop :=
  w.liveHandles = esList w.conn.eventSource ∧
  ∀ h ∈ w.liveHandles, h < w.nextHandle

/-- State reached after reconnect exhaustion while the caller has not acted:
auto-reconnect is configured, the connection was not manually closed, no
backoff timer is pending, and the attempt counter is at or past the cap. -/
def exhaustedLive (w : World) : Prop :=
  w.options.autoReconnect = true ∧
  w.conn.isManuallyDisconnected = false ∧
  w.conn.reconnectTimeout = false ∧
  w.options.maxReconnectAttempts ≤ w.conn.reconnectAttempts

/-- Checks that in an emission stream every `onDisconnect` is preceded by an
`onConnect` strictly after the previous `onDisconnect`; the flag records
whether the connection has reached open since the last disconnect emission. -/
def discAlternationOk : List Emit → Bool → Bool
  | [], _ => true
  | Emit.onConnect :: r, _ => discAlternationOk r true
  | Emit.onDisconnect :: r, f => f && discAlternationOk r false
  | Emit.onError _ :: r, f => discAlternationOk r f

/-- The open-since-last-disconnect flag after an emission stream. -/
def discFlagAfter : List Emit → Bool → Bool
  | [], f => f
  | Emit.onConnect :: r, _ => discFlagAfter r true
  | Emit.onDisconnect :: r, _ => discFlagAfter r false
  | Emit.onError _ :: r, f => discFlagAfter r f

/-- Registry invariant: connection ids are pairwise distinct and were all
allocated in the past. -/
def RegInv (s : StreamingState) : Prop :=
  (s.connections.map Prod.snd).Nodup ∧
  (∀ p ∈ s.connections, p.2 < s.nextId) ∧
  (∀ q ∈ s.store, q.1 < s.nextId)

instance (w : World) : Decidable (WorldInv w) := by
  unfold WorldInv; infer_instance

instance (w : World) : Decidable (exhaustedLive w) := by
  unfold exhaustedLive; infer_instance

instance (s : StreamingState) : Decidable (RegInv s) := by
  unfold RegInv; infer_instance

/-! ## Theorems -/

/-- C3: for every truthy action string, payload and time `t` (UNIX seconds),
the message built for signing is exactly
`ClawdVault:<action>:<window>:<JSON(signPayload)>` with
`window = floor(t / 300) * 300`, where `signPayload` is the fixed object
containing `action: create_session` when the action is `session` and the
verbatim caller payload otherwise; and whenever
`floor(t1 / 300) = floor(t2 / 300)` the built messages, and hence the signed
credentials for the same key, are identical. -/
theorem auth_message_format_and_window (a : String) (payload : List (String × Json))
    (t : Nat) (act : Option String) (p2 : List (String × Json)) (t1 t2 : Nat)
    (ha : a ≠ "") (hw : t1 / 300 = t2 / 300) :
    buildAuthMessage (some a) payload t =
      "ClawdVault:" ++ a ++ ":" ++ toString (t / 300 * 300) ++ ":"
        ++ stringify (Json.obj (if a = "session"
              then [("action", Json.str "create_session")] else payload)) ∧
    buildAuthMessage act p2 t1 = buildAuthMessage act p2 t2 ∧
    ∀ sg : WalletSignerM,
      createAuthSignature sg p2 act t1 = createAuthSignature sg p2 act t2 := by
  have hmsg : buildAuthMessage act p2 t1 = buildAuthMessage act p2 t2 := by
    simp only [buildAuthMessage, authWindow, hw]
  refine ⟨?_, hmsg, fun sg => by simp only [createAuthSignature, hmsg]⟩
  simp only [buildAuthMessage, resolveAuthAction, optStrTruthy, authSignData,
    isSessionAction, authWindow, Json.toJsString, Option.getD_some, bne_iff_ne,
    ne_eq, ha, not_false_eq_true, if_true, beq_iff_eq]

/-- C3 witness at a concrete action, payload and window pair. -/
theorem auth_message_format_and_window_witness :
    buildAuthMessage (some "chat") [("mint", Json.str "M")] 1000 =
      "ClawdVault:" ++ "chat" ++ ":" ++ toString (1000 / 300 * 300) ++ ":"
        ++ stringify (Json.obj (if ("chat" : String) = "session"
              then [("action", Json.str "create_session")]
              else [("mint", Json.str "M")])) ∧
    buildAuthMessage (some "chat") [("mint", Json.str "M")] 1000 =
      buildAuthMessage (some "chat") [("mint", Json.str "M")] 1100 ∧
    ∀ sg : WalletSignerM,
      createAuthSignature sg [("mint", Json.str "M")] (some "chat") 1000 =
        createAuthSignature sg [("mint", Json.str "M")] (some "chat") 1100 :=
  auth_message_format_and_window "chat" [("mint", Json.str "M")] 1000
    (some "chat") [("mint", Json.str "M")] 1000 1100 (by decide) (by decide)

/-- C10: when `createAuthSignature` is called without an explicit action, the
action embedded in the signed message is the truthy `action` property of the
payload when one exists, and defaults to `session` otherwise — and in the
default case (resolved action `session`) the signed payload is replaced by
the fixed literal regardless of the payload supplied; the first part also
shows that a truthy payload action equal to the string `session` likewise
forces the fixed literal. -/
theorem implicit_action_resolution (payload : List (String × Json)) (t : Nat)
    (v : Json) (hv : findProp payload "action" = some v) (htr : v.truthy = true) :
    buildAuthMessage none payload t =
      "ClawdVault:" ++ v.toJsString ++ ":" ++ toString (t / 300 * 300) ++ ":"
        ++ stringify (Json.obj (if isSessionAction v
              then [("action", Json.str "create_session")] else payload)) ∧
    ∀ p2 : List (String × Json),
      (findProp p2 "action").all (fun w => !w.truthy) = true →
      buildAuthMessage none p2 t =
        "ClawdVault:session:" ++ toString (t / 300 * 300) ++ ":"
          ++ stringify (Json.obj [("action", Json.str "create_session")]) := by
  constructor
  · simp [buildAuthMessage, resolveAuthAction, optStrTruthy, authWindow, hv,
      htr, authSignData]
  · intro p2 hp2
    cases h2 : findProp p2 "action" with
    | none =>
        simp only [buildAuthMessage, resolveAuthAction, optStrTruthy, authWindow, h2,
          authSignData, isSessionAction, Json.toJsString, beq_self_eq_true, if_true]
        rfl
    | some w =>
        rw [h2] at hp2
        simp only [Option.all_some, Bool.not_eq_true'] at hp2
        simp only [buildAuthMessage, resolveAuthAction, optStrTruthy, authWindow, h2,
          hp2, if_false, authSignData, isSessionAction, Json.toJsString,
          beq_self_eq_true, if_true, Bool.false_eq_true]
        rfl

/-- C10 witness: a payload carrying a truthy `action` property, and a payload
with no truthy `action` property. -/
theorem implicit_action_resolution_witness :
    (buildAuthMessage none [("action", Json.str "chat")] 650 =
      "ClawdVault:" ++ (Json.str "chat").toJsString ++ ":" ++ toString (650 / 300 * 300) ++ ":"
        ++ stringify (Json.obj (if isSessionAction (Json.str "chat")
              then [("action", Json.str "create_session")]
              else [("action", Json.str "chat")]))) ∧
    buildAuthMessage none [("x", Json.num 1)] 650 =
      "ClawdVault:session:" ++ toString (650 / 300 * 300) ++ ":"
        ++ stringify (Json.obj [("action", Json.str "create_session")]) :=
  ⟨(implicit_action_resolution [("action", Json.str "chat")] 650 (Json.str "chat")
      rfl rfl).1,
   (implicit_action_resolution [("action", Json.str "chat")] 650 (Json.str "chat")
      rfl rfl).2 [("x", Json.num 1)] rfl⟩

/-- C6: for every message, signature string and public-key string (and every
external ed25519 verifier core `ed`), `verifySignature` is a total boolean
function — the embedding of its `try/catch` maps every thrown decoding or
size error to `false` — and it returns `true` exactly when the signature
base58-decodes, the public key decodes to 32 bytes, the signature is 64 bytes
and the verifier core accepts; so malformed base58, a malformed key, and a
signature mismatch all yield `false`, and no exception escapes. -/
theorem verifySignature_fails_closed (ed : List Nat → List Nat → List Nat → Bool)
    (m s pk : String) :
    verifySignature ed m s pk = true ↔
      ∃ sb kb, bs58decode s = some sb ∧ publicKeyFromBase58 pk = some kb ∧
        sb.length = 64 ∧ ed (utf8Bytes m) sb kb = true := by
  unfold verifySignature verifySignatureBody
  cases hs : bs58decode s with
  | none => simp [hs]
  | some sb =>
    cases hk : publicKeyFromBase58 pk with
    | none => simp [hk]
    | some kb =>
      have hk32 : kb.length = 32 := by
        unfold publicKeyFromBase58 at hk
        cases h2 : bs58decode pk with
        | none => simp only [h2] at hk; cases hk
        | some bytes =>
            simp only [h2] at hk
            split at hk
            · cases hk; assumption
            · exact absurd hk (by simp)
      by_cases h64 : sb.length = 64
      · simp [naclVerifyDetached, h64, hk32]
      · simp [naclVerifyDetached, h64]

/-- C4 counterexample: an authenticated request with no cached token, a signer
available, but no JSON body. The claim requires the dispatcher to invoke the
signature protocol and attach the wallet-address and signature headers; the
code attaches no headers at all, because the signing branch is guarded by
`this.signer && body`. -/
theorem requestAuth_counterexample :
    authHeaders none (some { walletAddress := "W", signB58 := fun _ => "S" })
      none (some "chat") 0 true = [] := rfl

/-- C4 amended: for every request issued with the auth flag set, a truthy
cached bearer token is attached as a bearer `Authorization` header; otherwise,
if a signer is available AND a request body is present, the dispatcher invokes
the signature protocol on the body with the supplied action name and attaches
the wallet-address header, the signature header and, when a truthy action
name was supplied, the action-name header. -/
theorem requestAuth_attaches (tok : Option String) (sg : WalletSignerM)
    (body : Option (List (String × Json))) (b : List (String × Json))
    (action : Option String) (t : Nat) :
    (optStrTruthy tok = true →
      authHeaders tok (some sg) body action t true =
        [("Authorization", "Bearer " ++ tok.getD "")]) ∧
    (optStrTruthy tok = false →
      authHeaders tok (some sg) (some b) action t true =
        [("X-Wallet", (createAuthSignature sg b action t).wallet),
         ("X-Signature", (createAuthSignature sg b action t).signature)]
          ++ (if optStrTruthy action then [("X-Action", action.getD "")] else [])) := by
  constructor
  · intro hT; simp [authHeaders, hT]
  · intro hT; simp [authHeaders, hT]

/-- C4 witness: both header modes at concrete inputs. -/
theorem requestAuth_attaches_witness :
    authHeaders (some "TOK")
        (some { walletAddress := "W", signB58 := fun _ => "S" })
        (some [("m", Json.str "x")]) (some "chat") 0 true =
      [("Authorization", "Bearer " ++ (some "TOK").getD "")] ∧
    authHeaders none (some { walletAddress := "W", signB58 := fun _ => "S" })
        (some [("m", Json.str "x")]) (some "chat") 0 true =
      [("X-Wallet", (createAuthSignature { walletAddress := "W", signB58 := fun _ => "S" }
          [("m", Json.str "x")] (some "chat") 0).wallet),
       ("X-Signature", (createAuthSignature { walletAddress := "W", signB58 := fun _ => "S" }
          [("m", Json.str "x")] (some "chat") 0).signature)]
        ++ (if optStrTruthy (some "chat") then [("X-Action", (some "chat").getD "")] else []) :=
  ⟨(requestAuth_attaches (some "TOK") { walletAddress := "W", signB58 := fun _ => "S" }
      (some [("m", Json.str "x")]) [("m", Json.str "x")] (some "chat") 0).1 (by decide),
   (requestAuth_attaches none { walletAddress := "W", signB58 := fun _ => "S" }
      (some [("m", Json.str "x")]) [("m", Json.str "x")] (some "chat") 0).2 rfl⟩

/-- `scheduleReconnect` only touches the attempt counter and the timer. -/
theorem scheduleReconnect_frame (w : World) :
    (scheduleReconnect w).1.conn.eventSource = w.conn.eventSource ∧
    (scheduleReconnect w).1.liveHandles = w.liveHandles ∧
    (scheduleReconnect w).1.nextHandle = w.nextHandle ∧
    (scheduleReconnect w).1.options = w.options ∧
    (scheduleReconnect w).1.conn.isManuallyDisconnected = w.conn.isManuallyDisconnected ∧
    (scheduleReconnect w).1.conn.isConnected = w.conn.isConnected := by
  unfold scheduleReconnect
  split <;> simp

/-- `handleError` only touches `isConnected`, the attempt counter and the
timer. -/
theorem handleError_frame (w : World) :
    (handleError w).1.conn.eventSource = w.conn.eventSource ∧
    (handleError w).1.liveHandles = w.liveHandles ∧
    (handleError w).1.nextHandle = w.nextHandle ∧
    (handleError w).1.options = w.options ∧
    (handleError w).1.conn.isManuallyDisconnected = w.conn.isManuallyDisconnected := by
  simp only [handleError]
  split
  · exact ⟨(scheduleReconnect_frame _).1, (scheduleReconnect_frame _).2.1,
      (scheduleReconnect_frame _).2.2.1, (scheduleReconnect_frame _).2.2.2.1,
      (scheduleReconnect_frame _).2.2.2.2.1⟩
  · simp

/-- A connection state satisfying the invariant closes into an empty live set. -/
theorem closeHandle_of_inv (lh : List Nat) (es : Option Nat)
    (hlive : lh = esList es) : closeHandle lh es = [] := by
  cases es with
  | none => simpa [closeHandle, esList] using hlive
  | some h0 => simp [closeHandle, esList] at hlive ⊢; simp [hlive]

theorem worldInv_connect (w : World) (hw : WorldInv w) :
    WorldInv (connect w).1 ∧ w.nextHandle ≤ (connect w).1.nextHandle := by
  obtain ⟨hlive, hbound⟩ := hw
  unfold connect
  cases hes : w.conn.eventSource with
  | some h0 => exact ⟨⟨by simpa [hes] using hlive, by simpa [hes] using hbound⟩,
      by simp [hes]⟩
  | none =>
      rw [hes] at hlive
      simp only [esList] at hlive
      refine ⟨⟨?_, ?_⟩, ?_⟩
      · simp [hes, hlive, esList]
      · intro h hh
        simp [hes, hlive] at hh
        simp [hes, hh]
      · simp [hes]

theorem worldInv_disconnect (w : World) (hw : WorldInv w) :
    WorldInv (disconnect w).1 ∧ w.nextHandle ≤ (disconnect w).1.nextHandle := by
  obtain ⟨hlive, hbound⟩ := hw
  have hclose := closeHandle_of_inv w.liveHandles w.conn.eventSource hlive
  unfold disconnect
  split <;>
    exact ⟨⟨by simp [hclose, esList], by simp [hclose]⟩, by simp⟩

theorem worldInv_fire (w : World) (hw : WorldInv w) :
    WorldInv (fireReconnectTimer w).1 ∧ w.nextHandle ≤ (fireReconnectTimer w).1.nextHandle := by
  obtain ⟨hlive, hbound⟩ := hw
  have hclose := closeHandle_of_inv w.liveHandles w.conn.eventSource hlive
  unfold fireReconnectTimer
  exact worldInv_connect _ ⟨by simp [hclose, esList], by simp [hclose]⟩

/-- One step preserves the transport-handle invariant, and the handle
allocator never goes backwards. -/
theorem worldInv_step (w : World) (e : StreamEvent) (hw : WorldInv w) :
    WorldInv (step w e).1 ∧ w.nextHandle ≤ (step w e).1.nextHandle := by
  obtain ⟨hlive, hbound⟩ := hw
  cases e with
  | cmdConnect => exact worldInv_connect w ⟨hlive, hbound⟩
  | cmdDisconnect => exact worldInv_disconnect w ⟨hlive, hbound⟩
  | transportOpen =>
      simp only [step]
      split
      · exact ⟨⟨by simpa [handleOpen] using hlive, by simpa [handleOpen] using hbound⟩,
          by simp [handleOpen]⟩
      · exact ⟨⟨hlive, hbound⟩, le_refl _⟩
  | transportError =>
      simp only [step]
      split
      · obtain ⟨f1, f2, f3, f4, f5⟩ := handleError_frame w
        refine ⟨⟨?_, ?_⟩, ?_⟩
        · rw [f1, f2]; exact hlive
        · intro h hh; rw [f2] at hh; rw [f3]; exact hbound h hh
        · rw [f3]
      · exact ⟨⟨hlive, hbound⟩, le_refl _⟩
  | timerFire =>
      simp only [step]
      split
      · exact worldInv_fire w ⟨hlive, hbound⟩
      · exact ⟨⟨hlive, hbound⟩, le_refl _⟩

/-- The invariant holds in every reachable state of a fresh connection. -/
theorem worldInv_run (w : World) (tr : List StreamEvent) (hw : WorldInv w) :
    WorldInv (run w tr).1 ∧ w.nextHandle ≤ (run w tr).1.nextHandle := by
  induction tr generalizing w with
  | nil => exact ⟨hw, le_refl _⟩
  | cons e es ih =>
      obtain ⟨h1, h2⟩ := worldInv_step w e hw
      obtain ⟨h3, h4⟩ := ih (step w e).1 h1
      exact ⟨h3, le_trans h2 h4⟩

theorem worldInv_init (opts : StreamOptions) : WorldInv (initWorld opts) := by
  constructor
  · simp [initWorld, initialConnState, esList]
  · intro h hh
    simp [initWorld, initialConnState] at hh

/-- C5: in every reachable state of a `StreamConnection` at most one live
transport handle exists — the live set is exactly the handle held in
`eventSource` — and when a pending reconnect timer fires, the prior handle is
torn down and no longer live afterwards (the handle created by the reconnect
is a strictly fresher one), so a new connection attempt never starts while
the previous handle is still held. -/
theorem single_live_handle (opts : StreamOptions) (tr : List StreamEvent) :
    (run (initWorld opts) tr).1.liveHandles.length ≤ 1 ∧
    (run (initWorld opts) tr).1.liveHandles
      = esList (run (initWorld opts) tr).1.conn.eventSource ∧
    (∀ h, (run (initWorld opts) tr).1.conn.reconnectTimeout = true →
      (run (initWorld opts) tr).1.conn.eventSource = some h →
      h ∉ (step (run (initWorld opts) tr).1 StreamEvent.timerFire).1.liveHandles) := by
  obtain ⟨⟨hlive, hbound⟩, hnh⟩ :=
    worldInv_run (initWorld opts) tr (worldInv_init opts)
  refine ⟨?_, hlive, ?_⟩
  · rw [hlive]; cases (run (initWorld opts) tr).1.conn.eventSource <;> simp [esList]
  · intro h ht hes hmem
    have hclose := closeHandle_of_inv _ _ hlive
    have hlt : h < (run (initWorld opts) tr).1.nextHandle := by
      apply hbound
      rw [hlive, hes]
      simp [esList]
    simp only [step, ht, if_true, fireReconnectTimer, connect, hclose] at hmem
    simp at hmem
    omega

/-- C5 witness: a state with a pending reconnect timer, whose handle is gone
from the live set after the timer fires. -/
theorem single_live_handle_witness :
    (run (initWorld ⟨true, 100, 5⟩)
      [StreamEvent.cmdConnect, StreamEvent.transportError]).1.liveHandles.length ≤ 1 ∧
    (run (initWorld ⟨true, 100, 5⟩)
      [StreamEvent.cmdConnect, StreamEvent.transportError]).1.liveHandles
      = esList (run (initWorld ⟨true, 100, 5⟩)
        [StreamEvent.cmdConnect, StreamEvent.transportError]).1.conn.eventSource ∧
    0 ∉ (step (run (initWorld ⟨true, 100, 5⟩)
        [StreamEvent.cmdConnect, StreamEvent.transportError]).1
      StreamEvent.timerFire).1.liveHandles :=
  ⟨(single_live_handle ⟨true, 100, 5⟩
      [StreamEvent.cmdConnect, StreamEvent.transportError]).1,
   (single_live_handle ⟨true, 100, 5⟩
      [StreamEvent.cmdConnect, StreamEvent.transportError]).2.1,
   (single_live_handle ⟨true, 100, 5⟩
      [StreamEvent.cmdConnect, StreamEvent.transportError]).2.2 0
     (by decide) (by decide)⟩

theorem discAlternationOk_append (a b : List Emit) (f : Bool) :
    discAlternationOk (a ++ b) f
      = (discAlternationOk a f && discAlternationOk b (discFlagAfter a f)) := by
  induction a generalizing f with
  | nil => simp [discAlternationOk, discFlagAfter]
  | cons e r ih =>
      cases e <;> simp [discAlternationOk, discFlagAfter, ih, Bool.and_assoc]

theorem discFlagAfter_append (a b : List Emit) (f : Bool) :
    discFlagAfter (a ++ b) f = discFlagAfter b (discFlagAfter a f) := by
  induction a generalizing f with
  | nil => simp [discFlagAfter]
  | cons e r ih => cases e <;> simp [discFlagAfter, ih]

/-- Emissions of one step respect the open-since-last-disconnect discipline,
and the flag tracks `isConnected`. -/
theorem disc_step (w : World) (e : StreamEvent) :
    discAlternationOk (step w e).2 w.conn.isConnected = true ∧
    discFlagAfter (step w e).2 w.conn.isConnected = (step w e).1.conn.isConnected := by
  cases e with
  | cmdConnect =>
      simp only [step, connect]
      split <;> simp [discAlternationOk, discFlagAfter]
  | cmdDisconnect =>
      simp only [step, disconnect]
      cases hic : w.conn.isConnected <;>
        simp [hic, discAlternationOk, discFlagAfter]
  | transportOpen =>
      simp only [step]
      split <;> simp [handleOpen, discAlternationOk, discFlagAfter]
  | transportError =>
      simp only [step]
      split
      · simp only [handleError]
        cases hic : w.conn.isConnected <;>
          split <;>
            simp [hic, discAlternationOk, discFlagAfter, discAlternationOk_append,
              discFlagAfter_append, scheduleReconnect] <;>
              split <;> simp [discAlternationOk, discFlagAfter]
      · simp [discAlternationOk, discFlagAfter]
  | timerFire =>
      simp only [step]
      split
      · simp only [fireReconnectTimer, connect]
        split <;> simp [discAlternationOk, discFlagAfter]
      · simp [discAlternationOk, discFlagAfter]

theorem disc_run (w : World) (tr : List StreamEvent) :
    discAlternationOk (run w tr).2 w.conn.isConnected = true ∧
    discFlagAfter (run w tr).2 w.conn.isConnected = (run w tr).1.conn.isConnected := by
  induction tr generalizing w with
  | nil => simp [run, discAlternationOk, discFlagAfter]
  | cons e es ih =>
      obtain ⟨h1, h2⟩ := disc_step w e
      obtain ⟨h3, h4⟩ := ih (step w e).1
      constructor
      · simp [run, discAlternationOk_append, h1, h2, h3]
      · simp [run, discFlagAfter_append, h2, h4]

/-- C7: over every event sequence applied to a fresh `StreamConnection`, the
emitted callback stream satisfies the discipline that an `onDisconnect` is
emitted only when the connection had reached open (an `onConnect` emission)
at least once since the last `onDisconnect`; in particular a connection that
never reached open — whether it fails or is disconnected by the caller —
emits no `onDisconnect` at all. -/
theorem onDisconnect_requires_open (opts : StreamOptions) (tr : List StreamEvent) :
    discAlternationOk (run (initWorld opts) tr).2 false = true :=
  (disc_run (initWorld opts) tr).1

/-- C8: `disconnect()` is idempotent and synchronously cancelling — from any
state, a second `disconnect()` leaves the state unchanged and makes no
callback invocations (and, being a total function, throws nothing); after a
`disconnect()` no backoff timer is pending, and a timer expiry event after
`disconnect()` returns is a no-op, so no reconnect attempt ever fires. -/
theorem disconnect_idempotent_and_cancelling (w : World) :
    disconnect (disconnect w).1 = ((disconnect w).1, []) ∧
    (disconnect w).1.conn.reconnectTimeout = false ∧
    step (disconnect w).1 StreamEvent.timerFire = ((disconnect w).1, []) := by
  obtain ⟨⟨es, ra, rt, ic, md⟩, opts, nh, lh⟩ := w
  cases ic <;> cases es <;>
    simp [disconnect, step, closeHandle]

/-- C1 counterexample: with `maxReconnectAttempts = 1`, after the single
reconnect attempt fails the terminal error is emitted, and a further
transport error event on the still-held handle emits the terminal error a
second time — so the terminal error is NOT delivered exactly once, but once
per subsequent transport error event. -/
theorem terminal_error_not_once :
    ((run (initWorld ⟨true, 100, 1⟩)
        [StreamEvent.cmdConnect, StreamEvent.transportError, StreamEvent.timerFire,
         StreamEvent.transportError, StreamEvent.transportError]).2.count
      (Emit.onError (maxReconnectMsg 1))) = 2 := by decide

/-- Every step other than a transport open or a caller disconnect preserves
the exhausted-and-not-acted-on state. -/
theorem exhaustedLive_step (w : World) (e : StreamEvent) (h : exhaustedLive w)
    (he1 : e ≠ StreamEvent.transportOpen) (he2 : e ≠ StreamEvent.cmdDisconnect) :
    exhaustedLive (step w e).1 := by
  obtain ⟨har, hmd, hrt, hmax⟩ := h
  cases e with
  | cmdConnect =>
      simp only [step, connect]
      split
      · exact ⟨har, hmd, hrt, hmax⟩
      · exact ⟨har, by simp, by simpa using hrt, by simpa using hmax⟩
  | cmdDisconnect => exact absurd rfl he2
  | transportOpen => exact absurd rfl he1
  | transportError =>
      simp only [step]
      split
      · simp only [handleError, har, hmd]
        simp [scheduleReconnect, hmax]
        exact ⟨har, rfl, rfl, hmax⟩
      · exact ⟨har, hmd, hrt, hmax⟩
  | timerFire =>
      simp only [step, hrt]
      exact ⟨har, hmd, hrt, hmax⟩

theorem exhaustedLive_run (w : World) (tr : List StreamEvent) (h : exhaustedLive w)
    (htr : ∀ e ∈ tr, e ≠ StreamEvent.transportOpen ∧ e ≠ StreamEvent.cmdDisconnect) :
    exhaustedLive (run w tr).1 := by
  induction tr generalizing w with
  | nil => exact h
  | cons e es ih =>
      simp only [run]
      exact ih (step w e).1
        (exhaustedLive_step w e h (htr e (by simp)).1 (htr e (by simp)).2)
        (fun x hx => htr x (List.mem_cons_of_mem e hx))

/-- C1 corrected: with `maxReconnectAttempts = N`, once `N` consecutive
reconnect attempts have failed (the state is exhausted: attempt counter at
the cap, no timer pending, not manually closed, auto-reconnect on), then as
long as the caller does not act and the transport never opens, no further
reconnect attempt is ever scheduled (the backoff timer stays unarmed in every
subsequent state); the terminal max-reconnect error is delivered to on-error
callbacks NOT exactly once but once per subsequent transport error event:
each transport error on the still-held handle emits exactly the stream error
followed by one terminal error. -/
theorem reconnect_exhaustion_terminal (w : World) (tr : List StreamEvent)
    (h : exhaustedLive w)
    (htr : ∀ e ∈ tr, e ≠ StreamEvent.transportOpen ∧ e ≠ StreamEvent.cmdDisconnect) :
    exhaustedLive (run w tr).1 ∧
    (run w tr).1.conn.reconnectTimeout = false ∧
    (w.conn.eventSource.isSome = true →
      (step w StreamEvent.transportError).2
        = (if w.conn.isConnected then [Emit.onDisconnect] else [])
          ++ [Emit.onError streamErrorMsg,
              Emit.onError (maxReconnectMsg w.options.maxReconnectAttempts)]) := by
  obtain ⟨har, hmd, hrt, hmax⟩ := h
  have hrun : exhaustedLive (run w tr).1 :=
    exhaustedLive_run w tr ⟨har, hmd, hrt, hmax⟩ htr
  refine ⟨hrun, hrun.2.2.1, ?_⟩
  intro hes
  simp only [step, hes, if_true]
  simp only [handleError, har, hmd]
  simp only [scheduleReconnect]
  cases hic : w.conn.isConnected <;> simp [hic, hmax]

/-- C1 witness: a concrete exhausted state (attempt cap 1 reached) on which a
further transport error emits the stream error plus one terminal error, and
after which the timer stays unarmed. -/
theorem reconnect_exhaustion_terminal_witness :
    exhaustedLive (run (run (initWorld ⟨true, 100, 1⟩)
        [StreamEvent.cmdConnect, StreamEvent.transportError, StreamEvent.timerFire,
         StreamEvent.transportError]).1 [StreamEvent.transportError]).1 ∧
    (run (run (initWorld ⟨true, 100, 1⟩)
        [StreamEvent.cmdConnect, StreamEvent.transportError, StreamEvent.timerFire,
         StreamEvent.transportError]).1
      [StreamEvent.transportError]).1.conn.reconnectTimeout = false ∧
    ((run (initWorld ⟨true, 100, 1⟩)
        [StreamEvent.cmdConnect, StreamEvent.transportError, StreamEvent.timerFire,
         StreamEvent.transportError]).1.conn.eventSource.isSome = true →
      (step (run (initWorld ⟨true, 100, 1⟩)
          [StreamEvent.cmdConnect, StreamEvent.transportError, StreamEvent.timerFire,
           StreamEvent.transportError]).1 StreamEvent.transportError).2
        = (if (run (initWorld ⟨true, 100, 1⟩)
              [StreamEvent.cmdConnect, StreamEvent.transportError, StreamEvent.timerFire,
               StreamEvent.transportError]).1.conn.isConnected
            then [Emit.onDisconnect] else [])
          ++ [Emit.onError streamErrorMsg,
              Emit.onError (maxReconnectMsg (run (initWorld ⟨true, 100, 1⟩)
                [StreamEvent.cmdConnect, StreamEvent.transportError, StreamEvent.timerFire,
                 StreamEvent.transportError]).1.options.maxReconnectAttempts)]) := by
  have h := reconnect_exhaustion_terminal
    (run (initWorld ⟨true, 100, 1⟩)
      [StreamEvent.cmdConnect, StreamEvent.transportError, StreamEvent.timerFire,
       StreamEvent.transportError]).1
    [StreamEvent.transportError] (by decide) (by decide)
  exact ⟨h.1, h.2.1, fun hx => h.2.2 hx⟩

/-- C2 counterexample: after reconnect exhaustion (terminal error delivered
once on this trace), the stale transport handle is still held, so a further
`connect()` returns early and is a complete no-op — no new connection attempt
starts and no fresh transport handle is created, contrary to the claim. -/
theorem connect_after_exhaustion_noop :
    ((run (initWorld ⟨true, 100, 1⟩)
        [StreamEvent.cmdConnect, StreamEvent.transportError, StreamEvent.timerFire,
         StreamEvent.transportError]).2.count (Emit.onError (maxReconnectMsg 1)) = 1) ∧
    ((run (initWorld ⟨true, 100, 1⟩)
        [StreamEvent.cmdConnect, StreamEvent.transportError, StreamEvent.timerFire,
         StreamEvent.transportError]).1.conn.eventSource = some 1) ∧
    step (run (initWorld ⟨true, 100, 1⟩)
        [StreamEvent.cmdConnect, StreamEvent.transportError, StreamEvent.timerFire,
         StreamEvent.transportError]).1 StreamEvent.cmdConnect
      = ((run (initWorld ⟨true, 100, 1⟩)
          [StreamEvent.cmdConnect, StreamEvent.transportError, StreamEvent.timerFire,
           StreamEvent.transportError]).1, []) := by decide

/-- C2 corrected: after reconnect exhaustion the connection stays in its
failed state until the caller acts, but `connect()` alone (without an
intervening `disconnect()`) is a no-op while the stale transport handle is
still held; only after `disconnect()` does `connect()` start a new connection
attempt on a fresh transport handle — one never used before, in particular
distinct from the stale one. Stated for every state satisfying the reachable
transport-handle invariant. -/
theorem connect_requires_disconnect_after_exhaustion (w : World) (hw : WorldInv w) :
    (w.conn.eventSource.isSome = true → step w StreamEvent.cmdConnect = (w, [])) ∧
    (connect (disconnect w).1).2 = [] ∧
    (connect (disconnect w).1).1.conn.eventSource = some w.nextHandle ∧
    (connect (disconnect w).1).1.liveHandles = [w.nextHandle] ∧
    (∀ h, w.conn.eventSource = some h → h ≠ w.nextHandle) := by
  obtain ⟨hlive, hbound⟩ := hw
  have hclose := closeHandle_of_inv w.liveHandles w.conn.eventSource hlive
  have hd : (disconnect w).1.conn.eventSource = none ∧
      (disconnect w).1.liveHandles = [] ∧
      (disconnect w).1.nextHandle = w.nextHandle := by
    unfold disconnect; split <;> simp [hclose]
  refine ⟨?_, ?_, ?_, ?_, ?_⟩
  · intro hes; simp [step, connect, hes]
  · simp [connect, hd.1]
  · simp [connect, hd.1, hd.2.2]
  · simp [connect, hd.1, hd.2.1, hd.2.2]
  · intro h hes
    have hmem : h ∈ w.liveHandles := by rw [hlive, hes]; simp [esList]
    have := hbound h hmem
    omega

/-- C2 witness: the concrete post-exhaustion state of the counterexample
trace; `disconnect()` then `connect()` opens fresh handle 2, distinct from
the stale handle 1. -/
theorem connect_requires_disconnect_witness :
    ((run (initWorld ⟨true, 100, 1⟩)
        [StreamEvent.cmdConnect, StreamEvent.transportError, StreamEvent.timerFire,
         StreamEvent.transportError]).1.conn.eventSource.isSome = true →
      step (run (initWorld ⟨true, 100, 1⟩)
          [StreamEvent.cmdConnect, StreamEvent.transportError, StreamEvent.timerFire,
           StreamEvent.transportError]).1 StreamEvent.cmdConnect
        = ((run (initWorld ⟨true, 100, 1⟩)
            [StreamEvent.cmdConnect, StreamEvent.transportError, StreamEvent.timerFire,
             StreamEvent.transportError]).1, [])) ∧
    (connect (disconnect (run (initWorld ⟨true, 100, 1⟩)
        [StreamEvent.cmdConnect, StreamEvent.transportError, StreamEvent.timerFire,
         StreamEvent.transportError]).1).1).1.conn.eventSource
      = some (run (initWorld ⟨true, 100, 1⟩)
          [StreamEvent.cmdConnect, StreamEvent.transportError, StreamEvent.timerFire,
           StreamEvent.transportError]).1.nextHandle ∧
    (1 : Nat) ≠ (run (initWorld ⟨true, 100, 1⟩)
        [StreamEvent.cmdConnect, StreamEvent.transportError, StreamEvent.timerFire,
         StreamEvent.transportError]).1.nextHandle := by
  have h := connect_requires_disconnect_after_exhaustion
    (run (initWorld ⟨true, 100, 1⟩)
      [StreamEvent.cmdConnect, StreamEvent.transportError, StreamEvent.timerFire,
       StreamEvent.transportError]).1 (by decide)
  exact ⟨h.1, h.2.2.1, h.2.2.2.2 1 (by decide)⟩

/-- Splitting at a separator character absent from both prefixes is
injective. -/
theorem sep_append_inj (c : Char) :
    ∀ (a b m1 m2 : List Char), c ∉ a → c ∉ b →
      a ++ c :: m1 = b ++ c :: m2 → a = b ∧ m1 = m2 := by
  intro a
  induction a with
  | nil =>
      intro b m1 m2 hca hcb h
      cases b with
      | nil => simpa using h
      | cons y ys =>
          simp only [List.nil_append, List.cons_append, List.cons.injEq] at h
          exact absurd (h.1 ▸ List.mem_cons_self y ys) hcb
  | cons x xs ih =>
      intro b m1 m2 hca hcb h
      cases b with
      | nil =>
          simp only [List.nil_append, List.cons_append, List.cons.injEq] at h
          exact absurd (h.1 ▸ List.mem_cons_self x xs) hca
      | cons y ys =>
          simp only [List.cons_append, List.cons.injEq] at h
          obtain ⟨hxy, hrest⟩ := h
          have hr := ih ys m1 m2 (fun hc => hca (List.mem_cons_of_mem x hc))
            (fun hc => hcb (List.mem_cons_of_mem y hc)) hrest
          exact ⟨by rw [hxy, hr.1], hr.2⟩

theorem streamKey_data (t m : String) :
    (streamKey t m).data = t.data ++ ':' :: m.data := by
  have hc : (":" : String).data = [':'] := rfl
  simp [streamKey, String.data_append, hc]

theorem colon_not_mem_topic (t : String) (ht : t ∈ streamTopics) :
    ':' ∉ t.data := by
  simp only [streamTopics, List.mem_cons, List.not_mem_nil, or_false] at ht
  rcases ht with rfl | rfl | rfl <;> decide

/-- The registry keys of the three topics are injective in the
`(topic, resourceId)` pair. -/
theorem streamKey_inj (t1 m1 t2 m2 : String) (h1 : t1 ∈ streamTopics)
    (h2 : t2 ∈ streamTopics) (he : streamKey t1 m1 = streamKey t2 m2) :
    t1 = t2 ∧ m1 = m2 := by
  have hd := congrArg String.data he
  rw [streamKey_data, streamKey_data] at hd
  obtain ⟨ha, hb⟩ := sep_append_inj ':' t1.data t2.data m1.data m2.data
    (colon_not_mem_topic t1 h1) (colon_not_mem_topic t2 h2) hd
  exact ⟨String.ext ha, String.ext hb⟩

/-- A successful key lookup exhibits a registry entry. -/
theorem lookupKey_mem (s : StreamingState) (k : String) (id : Nat)
    (h : lookupKey s k = some id) : (k, id) ∈ s.connections := by
  unfold lookupKey at h
  cases hf : s.connections.find? (fun p => p.1 == k) with
  | none => rw [hf] at h; simp at h
  | some q =>
      rw [hf] at h
      simp at h
      have hq := List.find?_some hf
      simp at hq
      have hmem := List.mem_of_find?_eq_some hf
      have hqe : q = (k, id) := by
        cases q with
        | mk a b => simp_all
      rwa [hqe] at hmem

/-- After get-or-create, the key maps to the returned connection id. -/
theorem lookupKey_getOrCreate (s : StreamingState) (topic mint : String) :
    lookupKey (getOrCreate s topic mint).1 (streamKey topic mint)
      = some (getOrCreate s topic mint).2 := by
  cases hk : lookupKey s (streamKey topic mint) with
  | some id => simp only [getOrCreate, hk]
  | none =>
      simp only [getOrCreate, hk]
      simp only [lookupKey]
      rw [List.find?_append]
      have hnone : s.connections.find? (fun p => p.1 == streamKey topic mint) = none := by
        unfold lookupKey at hk
        cases hf : s.connections.find? (fun p => p.1 == streamKey topic mint) with
        | none => rfl
        | some q => rw [hf] at hk; simp at hk
      rw [hnone]
      simp [List.find?]

/-- Get-or-create preserves the registry invariant. -/
theorem regInv_getOrCreate (s : StreamingState) (topic mint : String)
    (hinv : RegInv s) : RegInv (getOrCreate s topic mint).1 := by
  obtain ⟨hnd, hbc, hbs⟩ := hinv
  cases hk : lookupKey s (streamKey topic mint) with
  | some id => simp only [getOrCreate, hk]; exact ⟨hnd, hbc, hbs⟩
  | none =>
      simp only [getOrCreate, hk]
      refine ⟨?_, ?_, ?_⟩
      · simp only [List.map_append, List.map_cons, List.map_nil]
        rw [List.nodup_append]
        refine ⟨hnd, by simp, ?_⟩
        intro a ha hb
        simp only [List.mem_singleton] at hb
        obtain ⟨p, hp, hpa⟩ := List.mem_map.mp ha
        have := hbc p hp
        omega
      · intro p hp
        simp only [List.mem_append, List.mem_singleton] at hp
        rcases hp with hp | hp
        · have := hbc p hp
          show p.2 < s.nextId + 1
          omega
        · subst hp; simp
      · intro q hq
        simp only [List.mem_append, List.mem_singleton] at hq
        rcases hq with hq | hq
        · have := hbs q hq
          show q.1 < s.nextId + 1
          omega
        · subst hq; simp

/-- A second get-or-create under a different key never returns the id the
first key maps to. -/
theorem getOrCreate_distinct (s1 : StreamingState) (k1 : String)
    (t2 m2 : String) (id1 : Nat) (hinv : RegInv s1)
    (hk1 : lookupKey s1 k1 = some id1) (hkey : k1 ≠ streamKey t2 m2) :
    (getOrCreate s1 t2 m2).2 ≠ id1 := by
  cases hk2 : lookupKey s1 (streamKey t2 m2) with
  | none =>
      simp only [getOrCreate, hk2]
      have := hinv.2.1 _ (lookupKey_mem s1 k1 id1 hk1)
      omega
  | some id2 =>
      simp only [getOrCreate, hk2]
      intro hcontra
      have hm1 := lookupKey_mem s1 k1 id1 hk1
      have hm2 := lookupKey_mem s1 (streamKey t2 m2) id2 hk2
      have heq := List.inj_on_of_nodup_map hinv.1 hm2 hm1 (by simpa using hcontra)
      simp only [Prod.mk.injEq] at heq
      exact hkey heq.1.symm

/-- C9: for every topic among trades, token and chat and every resource id,
the registry get-or-create is idempotent with reference identity — a second
call with the same arguments returns the very same connection id and leaves
the registry untouched; a first call (key miss) constructs a connection that
is not yet connected, so the caller must call `connect()`; and entries for
distinct `(topic, resourceId)` pairs are distinct connections. Stated over
any registry state satisfying the reachable registry invariant. -/
theorem getOrCreate_shared_instance (s : StreamingState) (t1 m1 t2 m2 : String)
    (hinv : RegInv s) (ht1 : t1 ∈ streamTopics) (ht2 : t2 ∈ streamTopics)
    (hne : (t1, m1) ≠ (t2, m2)) :
    getOrCreate (getOrCreate s t1 m1).1 t1 m1 = getOrCreate s t1 m1 ∧
    (lookupKey s (streamKey t1 m1) = none →
      lookupStore (getOrCreate s t1 m1).1 (getOrCreate s t1 m1).2
        = some { url := streamUrl s.baseUrl t1 m1, conn := initialConnState } ∧
      initialConnState.eventSource = none ∧
      initialConnState.isConnected = false) ∧
    (getOrCreate (getOrCreate s t1 m1).1 t2 m2).2 ≠ (getOrCreate s t1 m1).2 ∧
    RegInv (getOrCreate s t1 m1).1 := by
  have hA := lookupKey_getOrCreate s t1 m1
  have hI := regInv_getOrCreate s t1 m1 hinv
  refine ⟨?_, ?_, ?_, hI⟩
  · set p := getOrCreate s t1 m1 with hp
    simp only [getOrCreate, hA, Prod.mk.eta]
  · intro hmiss
    refine ⟨?_, rfl, rfl⟩
    simp only [getOrCreate, hmiss, lookupStore]
    rw [List.find?_append]
    have hnone : s.store.find? (fun q => q.1 == s.nextId) = none := by
      rw [List.find?_eq_none]
      intro q hq
      have := hinv.2.2 q hq
      simp only [beq_iff_eq]
      omega
    rw [hnone]
    simp [List.find?]
  · have hkey : streamKey t1 m1 ≠ streamKey t2 m2 := by
      intro hcontra
      obtain ⟨hta, htb⟩ := streamKey_inj t1 m1 t2 m2 ht1 ht2 hcontra
      exact hne (by rw [hta, htb])
    exact getOrCreate_distinct (getOrCreate s t1 m1).1 (streamKey t1 m1) t2 m2
      (getOrCreate s t1 m1).2 hI hA hkey

/-- C9 witness: a fresh registry; creating trades and chat streams for the
same mint yields distinct connections, and repeated calls share an instance. -/
theorem getOrCreate_shared_instance_witness :
    getOrCreate (getOrCreate (initStreaming "https://clawdvault.com/api"
        defaultStreamOptions) "trades" "M").1 "trades" "M"
      = getOrCreate (initStreaming "https://clawdvault.com/api"
          defaultStreamOptions) "trades" "M" ∧
    (lookupStore (getOrCreate (initStreaming "https://clawdvault.com/api"
          defaultStreamOptions) "trades" "M").1
        (getOrCreate (initStreaming "https://clawdvault.com/api"
          defaultStreamOptions) "trades" "M").2
      = some { url := streamUrl (initStreaming "https://clawdvault.com/api"
                        defaultStreamOptions).baseUrl "trades" "M",
               conn := initialConnState } ∧
      initialConnState.eventSource = none ∧
      initialConnState.isConnected = false) ∧
    (getOrCreate (getOrCreate (initStreaming "https://clawdvault.com/api"
          defaultStreamOptions) "trades" "M").1 "chat" "M").2
      ≠ (getOrCreate (initStreaming "https://clawdvault.com/api"
          defaultStreamOptions) "trades" "M").2 ∧
    RegInv (getOrCreate (initStreaming "https://clawdvault.com/api"
        defaultStreamOptions) "trades" "M").1 := by
  have h := getOrCreate_shared_instance
    (initStreaming "https://clawdvault.com/api" defaultStreamOptions)
    "trades" "M" "chat" "M" (by decide) (by decide) (by decide) (by decide)
  exact ⟨h.1, h.2.1 rfl, h.2.2.1, h.2.2.2⟩

end ClawdVault
